import Mathlib

/-!
Verification of the kepler.gl point-layer data pipeline
(`src/layers/point-layer/point-layer.js`).

Shallow embedding notes:
* A JavaScript cell value is modelled by `JSVal`: a finite number (as a
  rational), `NaN`, `Infinity`, a string, or `undefined`.  `Number.isFinite`
  is true exactly on finite numbers.
* A raw row (`d.data` in the source) is a list of cell values addressed by
  integer column index; out-of-range or negative access yields `undefined`,
  as in JavaScript array indexing.
* Rows handed to accessors are wrapped as `{data: row}` objects; `DataRow`
  models that wrapper.
* `lodash.memoize(f, resolver)` returns, per cache (one cache per layer
  instance, created in the constructor), the very same function object for
  two arguments exactly when `resolver` yields equal keys.  Reference
  identity of a memoized accessor within one layer instance is therefore
  modelled by the resolver key (a `String` for `getPosition`, an
  `Option Int` for `getText`).
* Methods inherited from the base layer class (`getVisChannelScale`,
  `getEncodedChannelValue`, `getPointsBounds`, `isLayerHovered`) and the
  external colour utility `hexToRgb` are not part of the provided source
  file; they are passed explicitly as the `Inherited` record of operations
  (explicit `this`-passing), so every theorem holds for an arbitrary
  implementation of them.
-/

set_option autoImplicit false

namespace KeplerPoint

/-- A JavaScript value as it can appear in a table cell. -/
inductive JSVal where
  | fin  (q : ℚ)
  | nan
  | inf
  | str  (s : String)
  | undef
deriving DecidableEq, Repr

/-- `Number.isFinite`: true exactly on finite numbers (no coercion). -/
def JSVal.isFinite : JSVal → Bool
  | .fin _ => true
  | _ => false

/-- `String(v)`: JavaScript stringification.  The exact number formatting is
abstracted by the rational's `toString`; no theorem below depends on it. -/
def JSVal.jsToString : JSVal → String
  | .fin q => toString q
  | .nan => "NaN"
  | .inf => "Infinity"
  | .str s => s
  | .undef => "undefined"

/-- A raw table row: cells addressed by integer column index. -/
abbrev Row := List JSVal

/-- JavaScript indexing `row[i]` with an integer index: negative or
out-of-range access yields `undefined`. -/
def jsIndex (row : Row) (i : Int) : JSVal :=
  match i with
  | .ofNat n => row.getD n JSVal.undef
  | .negSucc _ => JSVal.undef

/-- The `{data: row}` wrapper objects that the pipeline builds and feeds to
the accessors. -/
structure DataRow where
  data : Row
deriving DecidableEq, Repr

/-- One column binding entry, e.g. `config.columns.lat`. -/
structure ColSpec where
  fieldIdx : Int
deriving DecidableEq, Repr

/-- `config.columns`: `altitude` is optional (absent on layers created
before the altitude column existed). -/
structure Columns where
  lat : ColSpec
  lng : ColSpec
  altitude : Option ColSpec
deriving DecidableEq, Repr

/-- `pointPosAccessor`: `({lat, lng, altitude}) => d => [d.data[lng.fieldIdx],
d.data[lat.fieldIdx], altitude && altitude.fieldIdx > -1 ?
d.data[altitude.fieldIdx] : 0]`. -/
def pointPosAccessor (c : Columns) (d : DataRow) : List JSVal :=
  [ jsIndex d.data c.lng.fieldIdx,
    jsIndex d.data c.lat.fieldIdx,
    match c.altitude with
    | some a => if a.fieldIdx > -1 then jsIndex d.data a.fieldIdx else JSVal.fin 0
    | none => JSVal.fin 0 ]

/-- `pointPosResolver`: the memo key
`` `${lat.fieldIdx}-${lng.fieldIdx}-${altitude ? altitude.fieldIdx : 'z'}` ``. -/
def pointPosResolver (c : Columns) : String :=
  toString c.lat.fieldIdx ++ "-" ++ toString c.lng.fieldIdx ++ "-" ++
    (match c.altitude with
     | some a => toString a.fieldIdx
     | none => "z")

/-- The bound text-label field (`textLabel.field`); only its
`tableFieldIndex` is consumed by this pipeline. -/
structure TextField where
  tableFieldIndex : Int
deriving DecidableEq, Repr

/-- `config.textLabel`: `field` is `null` when no label field is bound.
(The sibling display options `offset`, `size`, `anchor`, `color` do not
influence the modelled computations.) -/
structure TextLabel where
  field : Option TextField
deriving DecidableEq, Repr

/-- `pointLabelAccessor`: `textLabel => d =>
String(d.data[textLabel.field.tableFieldIndex - 1])`.  With an unbound
field the JavaScript closure would throw on invocation; the pipeline never
invokes it then, and the model returns `""` in that unreachable case. -/
def pointLabelAccessor (t : TextLabel) (d : DataRow) : String :=
  match t.field with
  | some f => (jsIndex d.data (f.tableFieldIndex - 1)).jsToString
  | none => ""

/-- `pointLabelResolver`: `textLabel => textLabel.field &&
textLabel.field.tableFieldIndex` — `null` (here `none`) when unbound. -/
def pointLabelResolver (t : TextLabel) : Option Int :=
  t.field.map TextField.tableFieldIndex

/-- `lodash.uniq`, first-occurrence order. -/
def uniqList : List Char → List Char
  | [] => []
  | a :: rest => a :: uniqList (rest.filter (fun b => b ≠ a))
termination_by l => l.length
decreasing_by
  simp only [List.length_cons]
  exact Nat.lt_succ_of_le (List.length_filter_le _ _)

/-- An RGB colour triple as produced by `hexToRgb` or stored as
`config.color`. -/
abbrev RGB := List ℚ

/-- A field descriptor bound to a visual channel (`colorField`,
`strokeColorField`, `sizeField`); its contents are only handed on to the
inherited channel-value encoder. -/
structure VisField where
  tableFieldIndex : Int
deriving DecidableEq, Repr

/-- A colour range from the visual configuration: an ordered list of hex
colour strings (`colorRange.colors`). -/
structure ColorRange where
  colors : List String
deriving DecidableEq, Repr

/-- `config.visConfig` as consumed by this layer. -/
structure VisConfig where
  radius : ℚ
  fixedRadius : Bool
  opacity : ℚ
  outline : Bool
  thickness : ℚ
  strokeColor : Option RGB
  colorRange : ColorRange
  strokeColorRange : ColorRange
  radiusRange : List ℚ
  filled : Bool
deriving DecidableEq, Repr

/-- The slice of `this.config` read by `formatLayerData` / `renderLayer`. -/
structure LayerConfig where
  columns : Columns
  color : RGB
  colorField : Option VisField
  colorScale : String
  colorDomain : List ℚ
  strokeColorField : Option VisField
  strokeColorScale : String
  strokeColorDomain : List ℚ
  sizeField : Option VisField
  sizeScale : String
  sizeDomain : List ℚ
  textLabel : TextLabel
  visConfig : VisConfig
  highlightColor : RGB
deriving Repr

/-- The operations this file's source inherits from the base layer class or
imports from external utilities; they live outside the provided source file
and are passed explicitly.  `σ` is the type of channel scale objects
returned by `getVisChannelScale`; `β` is the type of the bounds value
returned by `getPointsBounds`. -/
structure Inherited (σ β : Type) where
  hexToRgb : String → RGB
  getVisChannelScaleColor : String → List ℚ → List RGB → σ
  getVisChannelScaleRadius : String → List ℚ → List ℚ → Bool → σ
  getEncodedChannelValueColor : σ → Row → VisField → RGB
  getEncodedChannelValueRadius : σ → Row → VisField → ℚ
  getPointsBounds : List Row → (Row → List JSVal) → β
  isLayerHovered : Option DataRow → Bool

/-- A per-row channel accessor as handed to deck.gl: either a constant
attribute value or a function of the wrapped row. -/
inductive Chan (α : Type) where
  | const (a : α)
  | fn (f : DataRow → α)

/-- The value a `Chan` yields for a given row (deck.gl applies a function
accessor per row and broadcasts a constant). -/
def Chan.app {α : Type} : Chan α → DataRow → α
  | .const a, _ => a
  | .fn f, d => f d

/-- The object returned by `formatLayerData` (and cached by the host as
`oldLayerData`).  `getPositionKey` / `getTextKey` are the lodash memo keys
standing for the reference identity of the memoized `getPosition` /
`getText` closures. -/
structure LayerData where
  data : List DataRow
  labelCharacterSet : List Char
  getPositionKey : String
  getTextKey : Option Int
  getPosition : DataRow → List JSVal
  getText : DataRow → String
  getFillColor : Chan RGB
  getLineColor : Chan RGB
  getRadius : Chan ℚ

/-- The layer-instance metadata mutated by `updateMeta` (only `bounds` is
touched by this source file). -/
structure LayerMeta (β : Type) where
  bounds : Option β

/-- `updateLayerMeta(allData)`: recompute the bounds over the **entire**
unfiltered dataset with the current position accessor and store them. -/
def updateLayerMeta {σ β : Type} (ops : Inherited σ β) (config : LayerConfig)
    (allData : List Row) : LayerMeta β :=
  ⟨some (ops.getPointsBounds allData
    (fun d => pointPosAccessor config.columns ⟨d⟩))⟩

/-- `formatLayerData(_, allData, filteredIndex, oldLayerData, opt)` together
with its side effect on `this.meta` (threaded in and out explicitly).
Structure mirrors the source:
* the scale objects `cScale`/`scScale`/`rScale` are truthy exactly when the
  corresponding field is bound, so the channel accessors match directly on
  the field and build the scale in place;
* bounds are refreshed when there is no cached output or the memoized
  position accessor changed identity;
* the row list is reused verbatim on the warm path, else rebuilt by the
  `filteredIndex.reduce` loop (accumulator append models `push`);
* the glyph set is reused when `sameData` holds and the memoized label
  accessor is unchanged, else recomputed as
  `uniq(textLabels.join(''))`. -/
def formatLayerData {σ β : Type} (ops : Inherited σ β) (config : LayerConfig)
    (allData : List Row) (filteredIndex : List Nat)
    (oldLayerData : Option LayerData) (sameData : Bool) (meta : LayerMeta β) :
    LayerData × LayerMeta β :=
  let getPositionKey := pointPosResolver config.columns
  let getPosition := pointPosAccessor config.columns
  -- if (!oldLayerData || oldLayerData.getPosition !== getPosition)
  --   this.updateLayerMeta(allData, getPosition)
  let meta' : LayerMeta β :=
    match oldLayerData with
    | none => updateLayerMeta ops config allData
    | some old =>
      if old.getPositionKey = getPositionKey then meta
      else updateLayerMeta ops config allData
  let data : List DataRow :=
    match oldLayerData with
    | some old =>
      if sameData = true ∧ old.getPositionKey = getPositionKey then old.data
      else
        filteredIndex.foldl
          (fun accu index =>
            if (pointPosAccessor config.columns ⟨allData.getD index []⟩).all
                JSVal.isFinite then
              accu ++ [⟨allData.getD index []⟩]
            else accu)
          []
    | none =>
      filteredIndex.foldl
        (fun accu index =>
          if (pointPosAccessor config.columns ⟨allData.getD index []⟩).all
              JSVal.isFinite then
            accu ++ [⟨allData.getD index []⟩]
          else accu)
        []
  let getTextKey := pointLabelResolver config.textLabel
  let getText := pointLabelAccessor config.textLabel
  let labelCharacterSet : List Char :=
    match oldLayerData with
    | some old =>
      if sameData = true ∧ old.getTextKey = getTextKey then
        old.labelCharacterSet
      else
        uniqList (String.join
          (match config.textLabel.field with
           | some _ => data.map getText
           | none => [])).data
    | none =>
      uniqList (String.join
        (match config.textLabel.field with
         | some _ => data.map getText
         | none => [])).data
  let getRadius : Chan ℚ :=
    match config.sizeField with
    | some f =>
      .fn (fun d => ops.getEncodedChannelValueRadius
        (ops.getVisChannelScaleRadius config.sizeScale config.sizeDomain
          config.visConfig.radiusRange config.visConfig.fixedRadius)
        d.data f)
    | none => .const 1
  let getFillColor : Chan RGB :=
    match config.colorField with
    | some f =>
      .fn (fun d => ops.getEncodedChannelValueColor
        (ops.getVisChannelScaleColor config.colorScale config.colorDomain
          (config.visConfig.colorRange.colors.map ops.hexToRgb))
        d.data f)
    | none => .const config.color
  let getLineColor : Chan RGB :=
    match config.strokeColorField with
    | some f =>
      .fn (fun d => ops.getEncodedChannelValueColor
        (ops.getVisChannelScaleColor config.strokeColorScale
          config.strokeColorDomain
          (config.visConfig.strokeColorRange.colors.map ops.hexToRgb))
        d.data f)
    | none => .const (config.visConfig.strokeColor.getD config.color)
  (⟨data, labelCharacterSet, getPositionKey, getTextKey, getPosition,
    getText, getFillColor, getLineColor, getRadius⟩, meta')

/-- A drawable sub-layer instance produced by `renderLayer`, reduced to the
structure the claims are about: its id, its row data and pickability for
the scatterplot layers, and its id and row data for the text layer. -/
inductive SubLayer where
  | scatter (id : String) (rows : List DataRow) (pickable : Bool)
  | text (id : String) (rows : List DataRow)

/-- `renderLayer({data, objectHovered, ...})`: the primary
`ScatterplotBrushingLayer`, then a highlight overlay over the single
hovered row when `this.isLayerHovered(objectHovered)` holds, then a
`TextLayer` when a label field is bound.  Numeric display props (opacity,
radius scale, update triggers, brushing radius) do not affect which
sub-layers are emitted and are omitted from `SubLayer`. -/
def renderLayer {σ β : Type} (ops : Inherited σ β) (config : LayerConfig)
    (layerId : String) (data : LayerData)
    (objectHovered : Option DataRow) : List SubLayer :=
  [SubLayer.scatter layerId data.data true]
  ++ (if ops.isLayerHovered objectHovered then
        [SubLayer.scatter (layerId ++ "-hovered")
          (match objectHovered with
           | some o => [o]
           | none => [])
          false]
      else [])
  ++ (match config.textLabel.field with
      | some _ => [SubLayer.text (layerId ++ "-label") data.data]
      | none => [])

/-! ### Concrete instances used to evaluate the pipeline -/

/-- A trivial instantiation of the inherited operations, used to run the
pipeline on concrete inputs (`σ = β = Unit`). -/
def unitOps : Inherited Unit Unit where
  hexToRgb := fun _ => []
  getVisChannelScaleColor := fun _ _ _ => ()
  getVisChannelScaleRadius := fun _ _ _ _ => ()
  getEncodedChannelValueColor := fun _ _ _ => []
  getEncodedChannelValueRadius := fun _ _ _ => 0
  getPointsBounds := fun _ _ => ()
  isLayerHovered := fun oh => oh.isSome

/-- A concrete visual configuration with every channel at its default. -/
def sampleVisConfig : VisConfig where
  radius := 10
  fixedRadius := false
  opacity := 8 / 10
  outline := false
  thickness := 2
  strokeColor := none
  colorRange := ⟨[]⟩
  strokeColorRange := ⟨[]⟩
  radiusRange := [0, 50]
  filled := true

/-- A concrete layer configuration: `lat.fieldIdx = 1`, `lng.fieldIdx = 0`,
altitude unbound (absent), no channel fields bound, no label field. -/
def sampleConfig : LayerConfig where
  columns := ⟨⟨1⟩, ⟨0⟩, none⟩
  color := [130, 154, 227]
  colorField := none
  colorScale := "quantile"
  colorDomain := []
  strokeColorField := none
  strokeColorScale := "quantile"
  strokeColorDomain := []
  sizeField := none
  sizeScale := "linear"
  sizeDomain := []
  textLabel := ⟨none⟩
  visConfig := sampleVisConfig
  highlightColor := [252, 242, 26]

/-- The worked-example rows `[{lng: 1, lat: 10}, {lng: NaN, lat: 20}]`,
stored as `[row[0] = lng, row[1] = lat]`. -/
def sampleRows : List Row :=
  [[JSVal.fin 1, JSVal.fin 10], [JSVal.nan, JSVal.fin 20]]

/-- A configuration with a bound text-label field (`tableFieldIndex = 3`,
so the label reads column 2). -/
def labeledConfig : LayerConfig :=
  { sampleConfig with textLabel := ⟨some ⟨3⟩⟩ }

/-- Rows with finite coordinates in columns 0/1 and a label string in
column 2. -/
def labelRows : List Row :=
  [[JSVal.fin 1, JSVal.fin 10, JSVal.str "ab"],
   [JSVal.fin 2, JSVal.fin 20, JSVal.str "bc"]]

/-- The first pass's output on the worked-example input, reused as a
concrete `LayerData` value. -/
def sampleLayerData : LayerData :=
  (formatLayerData unitOps sampleConfig sampleRows [0, 1] none false
    ⟨none⟩).1

/-! ### Helper lemmas -/

theorem digitChar_ne_dash (m : Nat) : Nat.digitChar m ≠ '-' := by
  rcases Nat.lt_or_ge m 16 with hlt | hge
  · interval_cases m <;> decide
  · have h : Nat.digitChar m = '*' := by
      unfold Nat.digitChar
      rw [if_neg (by omega : ¬m = 0), if_neg (by omega : ¬m = 1),
        if_neg (by omega : ¬m = 2), if_neg (by omega : ¬m = 3),
        if_neg (by omega : ¬m = 4), if_neg (by omega : ¬m = 5),
        if_neg (by omega : ¬m = 6), if_neg (by omega : ¬m = 7),
        if_neg (by omega : ¬m = 8), if_neg (by omega : ¬m = 9),
        if_neg (by omega : ¬m = 10), if_neg (by omega : ¬m = 11),
        if_neg (by omega : ¬m = 12), if_neg (by omega : ¬m = 13),
        if_neg (by omega : ¬m = 14), if_neg (by omega : ¬m = 15)]
    rw [h]
    decide

theorem toDigitsCore_no_dash (b : Nat) :
    ∀ (fuel n : Nat) (ds : List Char), '-' ∉ ds →
      '-' ∉ Nat.toDigitsCore b fuel n ds := by
  intro fuel
  induction fuel with
  | zero =>
    intro n ds h
    simpa [Nat.toDigitsCore] using h
  | succ fuel ih =>
    intro n ds h
    unfold Nat.toDigitsCore
    have hd : '-' ∉ (n % b).digitChar :: ds := by
      intro hmem
      rcases List.mem_cons.mp hmem with h1 | h1
      · exact digitChar_ne_dash _ h1.symm
      · exact h h1
    by_cases hz : n / b = 0
    · simpa [hz] using hd
    · have h2 := ih (n / b) ((n % b).digitChar :: ds) hd
      simpa [hz] using h2

theorem nat_repr_no_dash (n : Nat) : '-' ∉ (Nat.repr n).data := by
  unfold Nat.repr Nat.toDigits
  exact toDigitsCore_no_dash 10 (n + 1) n [] (by simp)

theorem nat_repr_ne_neg_one (n : Nat) : Nat.repr n ≠ "-1" := by
  intro h
  have hmem : '-' ∈ (Nat.repr n).data := by rw [h]; decide
  exact nat_repr_no_dash n hmem

theorem string_append_cancel_left {p a b : String} (h : p ++ a = p ++ b) :
    a = b := by
  apply String.ext
  have h2 := congrArg String.data h
  rw [String.data_append, String.data_append] at h2
  exact List.append_cancel_left h2

/-- The memo key of an altitude bound to `-1` differs from the key of an
altitude bound to any valid (non-negative) column index. -/
theorem pointPosResolver_negone_ne_nat (lat lng : ColSpec) (j : Nat) :
    pointPosResolver ⟨lat, lng, some ⟨-1⟩⟩ ≠
      pointPosResolver ⟨lat, lng, some ⟨(j : Int)⟩⟩ := by
  intro h
  unfold pointPosResolver at h
  have h1 : ("-1" : String) = toString ((j : Int)) := string_append_cancel_left h
  have h2 : toString ((j : Int)) = Nat.repr j := rfl
  exact nat_repr_ne_neg_one j (h2.symm.trans h1.symm)

/-- The memo key of an absent altitude binding (`'z'`) differs from the key
of an altitude entry with `fieldIdx = -1` (`'-1'`). -/
theorem pointPosResolver_none_ne_negone (lat lng : ColSpec) :
    pointPosResolver ⟨lat, lng, none⟩ ≠
      pointPosResolver ⟨lat, lng, some ⟨-1⟩⟩ := by
  intro h
  unfold pointPosResolver at h
  have h1 : ("z" : String) = "-1" := string_append_cancel_left h
  exact absurd h1 (by decide)

theorem mem_uniqList (c : Char) : ∀ l : List Char, c ∈ uniqList l ↔ c ∈ l := by
  intro l
  induction l using uniqList.induct with
  | case1 => simp [uniqList]
  | case2 a rest ih =>
    rw [uniqList]
    by_cases hca : c = a
    · subst hca; simp
    · simp only [List.mem_cons, ih, List.mem_filter, decide_eq_true_eq]
      constructor
      · rintro (h | ⟨h, -⟩)
        · exact Or.inl h
        · exact Or.inr h
      · rintro (h | h)
        · exact Or.inl h
        · exact Or.inr ⟨h, hca⟩

theorem nodup_uniqList : ∀ l : List Char, (uniqList l).Nodup := by
  intro l
  induction l using uniqList.induct with
  | case1 => simp [uniqList]
  | case2 a rest ih =>
    rw [uniqList]
    refine List.nodup_cons.mpr ⟨?_, ih⟩
    intro hmem
    have := (mem_uniqList a _).mp hmem
    simp [List.mem_filter] at this

theorem data_foldl_append :
    ∀ (ls : List String) (acc : String),
      (List.foldl (fun r s => r ++ s) acc ls).data
        = acc.data ++ (ls.map String.data).flatten := by
  intro ls
  induction ls with
  | nil => intro acc; simp
  | cons s rest ih =>
    intro acc
    simp only [List.foldl_cons, List.map_cons, List.flatten_cons, ih,
      String.data_append, List.append_assoc]

theorem mem_join_data (c : Char) (ls : List String) :
    c ∈ (String.join ls).data ↔ ∃ s ∈ ls, c ∈ s.data := by
  unfold String.join
  rw [data_foldl_append]
  simp [List.mem_flatten]

/-- The `filteredIndex.reduce` loop of `formatLayerData`, with an arbitrary
accumulator, equals appending the order-preserving filter of the wrapped
referenced rows. -/
theorem foldl_push_eq_filter (p : DataRow → Bool) (g : Nat → DataRow) :
    ∀ (fi : List Nat) (acc : List DataRow),
      List.foldl
        (fun accu index => if p (g index) then accu ++ [g index] else accu)
        acc fi
      = acc ++ (fi.map g).filter p := by
  intro fi
  induction fi with
  | nil => intro acc; simp
  | cons i rest ih =>
    intro acc
    simp only [List.foldl_cons, List.map_cons, List.filter_cons]
    cases h : p (g i) with
    | false => simp only [h, Bool.false_eq_true, if_false, ih]
    | true =>
      simp only [h, if_true, ih, List.append_assoc, List.singleton_append]

/-- The `getPositionKey` of a pass's output is always the resolver key of
the current column binding. -/
theorem formatLayerData_getPositionKey {σ β : Type} (ops : Inherited σ β)
    (config : LayerConfig) (allData : List Row) (filteredIndex : List Nat)
    (oldLayerData : Option LayerData) (sameData : Bool) (meta : LayerMeta β) :
    (formatLayerData ops config allData filteredIndex oldLayerData sameData
      meta).1.getPositionKey = pointPosResolver config.columns := rfl

/-- The `getTextKey` of a pass's output is always the resolver key of the
current text-label configuration. -/
theorem formatLayerData_getTextKey {σ β : Type} (ops : Inherited σ β)
    (config : LayerConfig) (allData : List Row) (filteredIndex : List Nat)
    (oldLayerData : Option LayerData) (sameData : Bool) (meta : LayerMeta β) :
    (formatLayerData ops config allData filteredIndex oldLayerData sameData
      meta).1.getTextKey = pointLabelResolver config.textLabel := rfl

/-- Cold row-list path with no cached output: the rebuilt list is the
order-preserving finite-coordinate filter of the referenced rows. -/
theorem formatLayerData_data_none {σ β : Type} (ops : Inherited σ β)
    (config : LayerConfig) (allData : List Row) (filteredIndex : List Nat)
    (sameData : Bool) (meta : LayerMeta β) :
    (formatLayerData ops config allData filteredIndex none sameData
      meta).1.data
      = (filteredIndex.map (fun i => (⟨allData.getD i []⟩ : DataRow))).filter
          (fun d => (pointPosAccessor config.columns d).all JSVal.isFinite) := by
  have h := foldl_push_eq_filter
    (fun d => (pointPosAccessor config.columns d).all JSVal.isFinite)
    (fun i => (⟨allData.getD i []⟩ : DataRow)) filteredIndex []
  exact h.trans (List.nil_append _)

/-- Warm row-list path: with a cached output, `sameData`, and an unchanged
position-accessor identity, the cached list is returned verbatim. -/
theorem formatLayerData_data_warm {σ β : Type} (ops : Inherited σ β)
    (config : LayerConfig) (allData : List Row) (filteredIndex : List Nat)
    (old : LayerData) (meta : LayerMeta β)
    (hk : old.getPositionKey = pointPosResolver config.columns) :
    (formatLayerData ops config allData filteredIndex (some old) true
      meta).1.data = old.data := by
  simp [formatLayerData, hk]

/-- Cold row-list path with a cached output whose position accessor has a
different identity: the list is rebuilt, whatever `sameData` says. -/
theorem formatLayerData_data_cold {σ β : Type} (ops : Inherited σ β)
    (config : LayerConfig) (allData : List Row) (filteredIndex : List Nat)
    (old : LayerData) (sameData : Bool) (meta : LayerMeta β)
    (hk : old.getPositionKey ≠ pointPosResolver config.columns) :
    (formatLayerData ops config allData filteredIndex (some old) sameData
      meta).1.data
      = (filteredIndex.map (fun i => (⟨allData.getD i []⟩ : DataRow))).filter
          (fun d => (pointPosAccessor config.columns d).all JSVal.isFinite) := by
  have h := foldl_push_eq_filter
    (fun d => (pointPosAccessor config.columns d).all JSVal.isFinite)
    (fun i => (⟨allData.getD i []⟩ : DataRow)) filteredIndex []
  have hcond : ¬(sameData = true ∧
      old.getPositionKey = pointPosResolver config.columns) :=
    fun hc => hk hc.2
  simp only [formatLayerData]
  rw [if_neg hcond]
  exact h.trans (List.nil_append _)

/-- Glyph recomputation with a bound label field: the glyph set is
`uniq` of the concatenation of the labels of the retained rows. -/
theorem formatLayerData_lcs_none {σ β : Type} (ops : Inherited σ β)
    (config : LayerConfig) (allData : List Row) (filteredIndex : List Nat)
    (sameData : Bool) (meta : LayerMeta β) (f : TextField)
    (hf : config.textLabel.field = some f) :
    (formatLayerData ops config allData filteredIndex none sameData
      meta).1.labelCharacterSet
      = uniqList (String.join
          ((formatLayerData ops config allData filteredIndex none sameData
            meta).1.data.map (pointLabelAccessor config.textLabel))).data := by
  simp only [formatLayerData, hf]

/-- Glyph recomputation with no bound label field: the glyph set is empty. -/
theorem formatLayerData_lcs_none_unbound {σ β : Type} (ops : Inherited σ β)
    (config : LayerConfig) (allData : List Row) (filteredIndex : List Nat)
    (sameData : Bool) (meta : LayerMeta β)
    (hf : config.textLabel.field = none) :
    (formatLayerData ops config allData filteredIndex none sameData
      meta).1.labelCharacterSet = [] := by
  simp only [formatLayerData, hf]
  rw [show (String.join []).data = ([] : List Char) from rfl]
  rw [uniqList]

/-- Warm glyph path: with a cached output, `sameData`, and an unchanged
label-accessor identity, the cached glyph set is returned verbatim. -/
theorem formatLayerData_lcs_warm {σ β : Type} (ops : Inherited σ β)
    (config : LayerConfig) (allData : List Row) (filteredIndex : List Nat)
    (old : LayerData) (meta : LayerMeta β)
    (hk : old.getTextKey = pointLabelResolver config.textLabel) :
    (formatLayerData ops config allData filteredIndex (some old) true
      meta).1.labelCharacterSet = old.labelCharacterSet := by
  simp [formatLayerData, hk]

/-- With no cached output the bounds are recomputed. -/
theorem formatLayerData_snd_none {σ β : Type} (ops : Inherited σ β)
    (config : LayerConfig) (allData : List Row) (filteredIndex : List Nat)
    (sameData : Bool) (meta : LayerMeta β) :
    (formatLayerData ops config allData filteredIndex none sameData meta).2
      = updateLayerMeta ops config allData := rfl

/-- With a cached output of unchanged position-accessor identity the meta
is left untouched. -/
theorem formatLayerData_snd_same {σ β : Type} (ops : Inherited σ β)
    (config : LayerConfig) (allData : List Row) (filteredIndex : List Nat)
    (old : LayerData) (sameData : Bool) (meta : LayerMeta β)
    (hk : old.getPositionKey = pointPosResolver config.columns) :
    (formatLayerData ops config allData filteredIndex (some old) sameData
      meta).2 = meta := by
  simp [formatLayerData, hk]

/-- With a cached output of changed position-accessor identity the bounds
are recomputed over the entire dataset. -/
theorem formatLayerData_snd_diff {σ β : Type} (ops : Inherited σ β)
    (config : LayerConfig) (allData : List Row) (filteredIndex : List Nat)
    (old : LayerData) (sameData : Bool) (meta : LayerMeta β)
    (hk : old.getPositionKey ≠ pointPosResolver config.columns) :
    (formatLayerData ops config allData filteredIndex (some old) sameData
      meta).2 = updateLayerMeta ops config allData := by
  simp [formatLayerData, hk]

/-! ### Claim theorems -/

/-- Claim C1: on a computing pass, a row referenced by the filtered-index
sequence appears (wrapped) in the output row set iff all three coordinates
derived by the position accessor are finite, the retained rows keep the
relative order of their indices, and the derived altitude coordinate is `0`
whenever the altitude binding is absent or its `fieldIdx` is `-1`. -/
theorem formatLayerData_filtering_law {σ β : Type} (ops : Inherited σ β)
    (config : LayerConfig) (allData : List Row) (filteredIndex : List Nat)
    (sameData : Bool) (meta : LayerMeta β)
    (hrange : ∀ i ∈ filteredIndex, i < allData.length) :
    (formatLayerData ops config allData filteredIndex none sameData
        meta).1.data
      = (filteredIndex.map (fun i => (⟨allData.getD i []⟩ : DataRow))).filter
          (fun d => (pointPosAccessor config.columns d).all JSVal.isFinite)
    ∧ (∀ d : DataRow,
        (match config.columns.altitude with
         | none => True
         | some a => a.fieldIdx = -1) →
        pointPosAccessor config.columns d
          = [jsIndex d.data config.columns.lng.fieldIdx,
             jsIndex d.data config.columns.lat.fieldIdx, JSVal.fin 0]) := by
  constructor
  · exact formatLayerData_data_none ops config allData filteredIndex
      sameData meta
  · intro d h
    rcases halt : config.columns.altitude with _ | a
    · simp [pointPosAccessor, halt]
    · rw [halt] at h
      have h2 : a.fieldIdx = -1 := h
      simp [pointPosAccessor, halt, h2]

/-- Witness for C1 at the worked-example input (`hrange` holds for indices
`[0, 1]` into the two sample rows). -/
theorem formatLayerData_filtering_law_witness :
    (formatLayerData unitOps sampleConfig sampleRows [0, 1] none false
        ⟨none⟩).1.data
      = (([0, 1] : List Nat).map
            (fun i => (⟨sampleRows.getD i []⟩ : DataRow))).filter
          (fun d => (pointPosAccessor sampleConfig.columns d).all
            JSVal.isFinite) :=
  (formatLayerData_filtering_law unitOps sampleConfig sampleRows [0, 1]
    false ⟨none⟩ (by decide)).1

/-- Claim C2: a second pass on the same layer with unchanged configuration,
the same dataset and filtered indices, the previous output as
`oldLayerData` and `sameData = true` reuses the cached row set and glyph
set verbatim; moreover the warm path never iterates the rows — the reused
values do not depend on the rows or filtered indices supplied to the second
pass at all. -/
theorem formatLayerData_warm_idempotent {σ β : Type} (ops : Inherited σ β)
    (config : LayerConfig) (allData : List Row) (filteredIndex : List Nat)
    (old0 : Option LayerData) (s0 : Bool) (meta0 meta1 : LayerMeta β) :
    let out1 := (formatLayerData ops config allData filteredIndex old0 s0
      meta0).1
    ((formatLayerData ops config allData filteredIndex (some out1) true
        meta1).1.data = out1.data)
    ∧ ((formatLayerData ops config allData filteredIndex (some out1) true
        meta1).1.labelCharacterSet = out1.labelCharacterSet)
    ∧ (∀ (allData2 : List Row) (fi2 : List Nat),
        ((formatLayerData ops config allData2 fi2 (some out1) true
            meta1).1.data = out1.data)
        ∧ ((formatLayerData ops config allData2 fi2 (some out1) true
            meta1).1.labelCharacterSet = out1.labelCharacterSet)) := by
  intro out1
  have hk : out1.getPositionKey = pointPosResolver config.columns := rfl
  have ht : out1.getTextKey = pointLabelResolver config.textLabel := rfl
  exact ⟨formatLayerData_data_warm ops config allData filteredIndex _ meta1 hk,
    formatLayerData_lcs_warm ops config allData filteredIndex _ meta1 ht,
    fun allData2 fi2 =>
      ⟨formatLayerData_data_warm ops config allData2 fi2 _ meta1 hk,
       formatLayerData_lcs_warm ops config allData2 fi2 _ meta1 ht⟩⟩

/-- Claim C3: the memo key of the position accessor depends only on the
`(lat.fieldIdx, lng.fieldIdx, altitude.fieldIdx)` triple, so two
structurally equal bindings resolve to the same cached accessor instance
(lodash.memoize returns the cached function whenever the resolver keys are
equal). -/
theorem getPosition_memo_structural (b1 b2 : Columns)
    (hlat : b1.lat.fieldIdx = b2.lat.fieldIdx)
    (hlng : b1.lng.fieldIdx = b2.lng.fieldIdx)
    (halt : b1.altitude.map ColSpec.fieldIdx
      = b2.altitude.map ColSpec.fieldIdx) :
    pointPosResolver b1 = pointPosResolver b2 := by
  rcases b1 with ⟨⟨l1⟩, ⟨g1⟩, alt1⟩
  rcases b2 with ⟨⟨l2⟩, ⟨g2⟩, alt2⟩
  obtain rfl : l1 = l2 := hlat
  obtain rfl : g1 = g2 := hlng
  rcases alt1 with _ | ⟨a1⟩ <;> rcases alt2 with _ | ⟨a2⟩ <;>
    simp_all [pointPosResolver]

/-- Witness for C3: two bindings with the triple `(1, 0, 2)` share a memo
key. -/
theorem getPosition_memo_structural_witness :
    pointPosResolver ⟨⟨1⟩, ⟨0⟩, some ⟨2⟩⟩
      = pointPosResolver ⟨⟨1⟩, ⟨0⟩, some ⟨2⟩⟩ :=
  getPosition_memo_structural _ _ rfl rfl rfl

/-- Claim C8: the worked example — rows `[{lng: 1, lat: 10},
{lng: NaN, lat: 20}]`, `lat.fieldIdx = 1`, `lng.fieldIdx = 0`, altitude
unbound, filtered indices `[0, 1]` — yields exactly the wrapped row 0, whose
derived position is `[1, 10, 0]`; row 1 is dropped for its non-finite
longitude. -/
theorem formatLayerData_worked_example :
    (formatLayerData unitOps sampleConfig sampleRows [0, 1] none false
        ⟨none⟩).1.data = [⟨[JSVal.fin 1, JSVal.fin 10]⟩]
    ∧ pointPosAccessor sampleConfig.columns ⟨[JSVal.fin 1, JSVal.fin 10]⟩
        = [JSVal.fin 1, JSVal.fin 10, JSVal.fin 0]
    ∧ (pointPosAccessor sampleConfig.columns
        ⟨[JSVal.nan, JSVal.fin 20]⟩).all JSVal.isFinite = false := by
  exact ⟨by decide, by decide, by decide⟩

/-- Claim C4: bounds are recomputed (over the **entire** unfiltered
dataset) exactly when there is no cached output or the position accessor
identity changed; otherwise the metadata is returned untouched.  In
particular the second conjunct shows the resulting metadata never depends
on `sameData` or on the filtered-index sequence. -/
theorem formatLayerData_bounds_frame {σ β : Type} (ops : Inherited σ β)
    (config : LayerConfig) (allData : List Row) (filteredIndex : List Nat)
    (oldLayerData : Option LayerData) (sameData : Bool) (meta : LayerMeta β) :
    ((formatLayerData ops config allData filteredIndex oldLayerData sameData
        meta).2
      = match oldLayerData with
        | none => updateLayerMeta ops config allData
        | some old =>
          if old.getPositionKey = pointPosResolver config.columns then meta
          else updateLayerMeta ops config allData)
    ∧ (∀ (sameData2 : Bool) (fi2 : List Nat),
        (formatLayerData ops config allData fi2 oldLayerData sameData2
          meta).2
        = (formatLayerData ops config allData filteredIndex oldLayerData
            sameData meta).2) := by
  constructor
  · cases oldLayerData with
    | none => rfl
    | some old =>
      by_cases hk : old.getPositionKey = pointPosResolver config.columns
      · rw [formatLayerData_snd_same ops config allData filteredIndex old
          sameData meta hk]
        simp [hk]
      · rw [formatLayerData_snd_diff ops config allData filteredIndex old
          sameData meta hk]
        simp [hk]
  · intro sameData2 fi2
    cases oldLayerData with
    | none => rfl
    | some old =>
      by_cases hk : old.getPositionKey = pointPosResolver config.columns
      · rw [formatLayerData_snd_same ops config allData fi2 old sameData2
          meta hk,
          formatLayerData_snd_same ops config allData filteredIndex old
          sameData meta hk]
      · rw [formatLayerData_snd_diff ops config allData fi2 old sameData2
          meta hk,
          formatLayerData_snd_diff ops config allData filteredIndex old
          sameData meta hk]

/-- Claim C5: rebinding the altitude column from `-1` (unbound) to a valid
(non-negative) column index changes the memo key, so the next pass is cold
even with `sameData = true`: bounds are recomputed and the filtered row
list is rebuilt rather than reused from the cache. -/
theorem altitude_rebind_forces_cold {σ β : Type} (ops : Inherited σ β)
    (config : LayerConfig) (lat lng : ColSpec) (j : Nat)
    (allData : List Row) (filteredIndex : List Nat)
    (old0 : Option LayerData) (s0 : Bool) (meta0 meta1 : LayerMeta β) :
    let config1 := { config with columns := ⟨lat, lng, some ⟨-1⟩⟩ }
    let config2 := { config with columns := ⟨lat, lng, some ⟨(j : Int)⟩⟩ }
    let out1 := (formatLayerData ops config1 allData filteredIndex old0 s0
      meta0).1
    out1.getPositionKey ≠ pointPosResolver config2.columns
    ∧ (formatLayerData ops config2 allData filteredIndex (some out1) true
        meta1).2 = updateLayerMeta ops config2 allData
    ∧ (formatLayerData ops config2 allData filteredIndex (some out1) true
        meta1).1.data
      = (filteredIndex.map (fun i => (⟨allData.getD i []⟩ : DataRow))).filter
          (fun d => (pointPosAccessor config2.columns d).all
            JSVal.isFinite) := by
  intro config1 config2 out1
  have hne : out1.getPositionKey ≠ pointPosResolver config2.columns := by
    have hk1 : out1.getPositionKey = pointPosResolver config1.columns := rfl
    rw [hk1]
    exact pointPosResolver_negone_ne_nat lat lng j
  exact ⟨hne,
    formatLayerData_snd_diff ops config2 allData filteredIndex out1 true
      meta1 hne,
    formatLayerData_data_cold ops config2 allData filteredIndex out1 true
      meta1 hne⟩

/-- Claim C10: an absent altitude entry and one bound to `-1` give
accessors that agree on every row (both derive altitude `0`), yet their
memo keys differ (`'z'` versus `'-1'`), so switching representations
forces a cold pass: bounds are recomputed and the row set rebuilt despite
identical accessor behaviour. -/
theorem altitude_absent_vs_negone {σ β : Type} (ops : Inherited σ β)
    (config : LayerConfig) (lat lng : ColSpec) (allData : List Row)
    (filteredIndex : List Nat) (old0 : Option LayerData) (s0 : Bool)
    (meta0 meta1 : LayerMeta β) :
    let c1 : Columns := ⟨lat, lng, none⟩
    let c2 : Columns := ⟨lat, lng, some ⟨-1⟩⟩
    let out1 := (formatLayerData ops { config with columns := c1 } allData
      filteredIndex old0 s0 meta0).1
    (∀ d : DataRow, pointPosAccessor c1 d = pointPosAccessor c2 d)
    ∧ pointPosResolver c1 ≠ pointPosResolver c2
    ∧ (formatLayerData ops { config with columns := c2 } allData
        filteredIndex (some out1) true meta1).2
      = updateLayerMeta ops { config with columns := c2 } allData
    ∧ (formatLayerData ops { config with columns := c2 } allData
        filteredIndex (some out1) true meta1).1.data
      = (filteredIndex.map (fun i => (⟨allData.getD i []⟩ : DataRow))).filter
          (fun d => (pointPosAccessor c2 d).all JSVal.isFinite) := by
  intro c1 c2 out1
  have hacc : ∀ d : DataRow, pointPosAccessor c1 d = pointPosAccessor c2 d := by
    intro d
    show [_, _, JSVal.fin 0]
      = [_, _, if ((-1 : Int) > -1) then jsIndex d.data (-1) else JSVal.fin 0]
    norm_num
  have hne : pointPosResolver c1 ≠ pointPosResolver c2 :=
    pointPosResolver_none_ne_negone lat lng
  have hne2 : out1.getPositionKey
      ≠ pointPosResolver ({ config with columns := c2 } : LayerConfig).columns := by
    have hk1 : out1.getPositionKey = pointPosResolver c1 := rfl
    rw [hk1]
    exact hne
  exact ⟨hacc, hne,
    formatLayerData_snd_diff ops _ allData filteredIndex out1 true meta1 hne2,
    formatLayerData_data_cold ops _ allData filteredIndex out1 true meta1 hne2⟩

/-- Claim C7: every unbound visual channel resolves to a constant for all
rows — radius `1` with no size field, the base colour with no colour
field, and the configured stroke colour (falling back to the fill colour)
with no stroke-colour field. -/
theorem channel_fallback_constants {σ β : Type} (ops : Inherited σ β)
    (config : LayerConfig) (allData : List Row) (filteredIndex : List Nat)
    (oldLayerData : Option LayerData) (sameData : Bool) (meta : LayerMeta β) :
    (config.sizeField = none → ∀ d : DataRow,
      ((formatLayerData ops config allData filteredIndex oldLayerData
        sameData meta).1.getRadius).app d = 1)
    ∧ (config.colorField = none → ∀ d : DataRow,
      ((formatLayerData ops config allData filteredIndex oldLayerData
        sameData meta).1.getFillColor).app d = config.color)
    ∧ (config.strokeColorField = none → ∀ d : DataRow,
      ((formatLayerData ops config allData filteredIndex oldLayerData
        sameData meta).1.getLineColor).app d
        = config.visConfig.strokeColor.getD config.color) := by
  refine ⟨fun h d => ?_, fun h d => ?_, fun h d => ?_⟩
  · have e : (formatLayerData ops config allData filteredIndex oldLayerData
        sameData meta).1.getRadius = Chan.const 1 := by
      simp [formatLayerData, h]
    rw [e]
    rfl
  · have e : (formatLayerData ops config allData filteredIndex oldLayerData
        sameData meta).1.getFillColor = Chan.const config.color := by
      simp [formatLayerData, h]
    rw [e]
    rfl
  · have e : (formatLayerData ops config allData filteredIndex oldLayerData
        sameData meta).1.getLineColor
        = Chan.const (config.visConfig.strokeColor.getD config.color) := by
      simp [formatLayerData, h]
    rw [e]
    rfl

/-- Witness for C7 at a concrete configuration with all three channel
fields unbound. -/
theorem channel_fallback_constants_witness :
    (((formatLayerData unitOps sampleConfig sampleRows [0, 1] none false
        ⟨none⟩).1.getRadius).app ⟨[]⟩ = 1)
    ∧ (((formatLayerData unitOps sampleConfig sampleRows [0, 1] none false
        ⟨none⟩).1.getFillColor).app ⟨[]⟩ = sampleConfig.color)
    ∧ (((formatLayerData unitOps sampleConfig sampleRows [0, 1] none false
        ⟨none⟩).1.getLineColor).app ⟨[]⟩
        = sampleConfig.visConfig.strokeColor.getD sampleConfig.color) := by
  have h := channel_fallback_constants unitOps sampleConfig sampleRows
    [0, 1] none false ⟨none⟩
  exact ⟨h.1 rfl ⟨[]⟩, h.2.1 rfl ⟨[]⟩, h.2.2 rfl ⟨[]⟩⟩

/-- Claim C9: `renderLayer` always emits the primary point layer first, one
highlight overlay exactly when the layer's hover predicate holds (built
over the single hovered row), and one text-label overlay exactly when a
label field is bound — so it emits 1, 2, or 3 drawable sub-layers. -/
theorem renderLayer_sublayer_count {σ β : Type} (ops : Inherited σ β)
    (config : LayerConfig) (layerId : String) (data : LayerData)
    (objectHovered : Option DataRow) :
    ((renderLayer ops config layerId data objectHovered).length
      = 1 + (if ops.isLayerHovered objectHovered then 1 else 0)
          + (if config.textLabel.field.isSome then 1 else 0))
    ∧ ((renderLayer ops config layerId data objectHovered).head?
        = some (SubLayer.scatter layerId data.data true))
    ∧ (∀ o : DataRow, objectHovered = some o →
        ops.isLayerHovered objectHovered = true →
        SubLayer.scatter (layerId ++ "-hovered") [o] false
          ∈ renderLayer ops config layerId data objectHovered) := by
  refine ⟨?_, ?_, ?_⟩
  · by_cases hov : ops.isLayerHovered objectHovered <;>
      rcases hf : config.textLabel.field with _ | f <;>
      simp [renderLayer, hov, hf]
  · by_cases hov : ops.isLayerHovered objectHovered <;>
      rcases hf : config.textLabel.field with _ | f <;>
      simp [renderLayer, hov, hf]
  · intro o ho hov
    subst ho
    simp [renderLayer, hov]

/-- Claim C6: whenever the glyph set is recomputed it is a duplicate-free
list whose members are exactly the characters occurring in the labels of
the retained rows; it is invariant (as a set) under permutation of the
filtered-index sequence; and it is empty when no label field is bound. -/
theorem glyph_set_characterization {σ β : Type} (ops : Inherited σ β)
    (config : LayerConfig) (allData : List Row) (filteredIndex : List Nat)
    (sameData : Bool) (meta : LayerMeta β) :
    ((formatLayerData ops config allData filteredIndex none sameData
        meta).1.labelCharacterSet.Nodup)
    ∧ (∀ f : TextField, config.textLabel.field = some f → ∀ c : Char,
        (c ∈ (formatLayerData ops config allData filteredIndex none sameData
            meta).1.labelCharacterSet
          ↔ ∃ d ∈ (formatLayerData ops config allData filteredIndex none
              sameData meta).1.data,
              c ∈ (pointLabelAccessor config.textLabel d).data))
    ∧ (config.textLabel.field = none →
        (formatLayerData ops config allData filteredIndex none sameData
          meta).1.labelCharacterSet = [])
    ∧ (∀ fi2 : List Nat, filteredIndex.Perm fi2 → ∀ c : Char,
        (c ∈ (formatLayerData ops config allData filteredIndex none sameData
            meta).1.labelCharacterSet
          ↔ c ∈ (formatLayerData ops config allData fi2 none sameData
              meta).1.labelCharacterSet)) := by
  refine ⟨?_, ?_, ?_, ?_⟩
  · rcases hf : config.textLabel.field with _ | f
    · rw [formatLayerData_lcs_none_unbound ops config allData filteredIndex
        sameData meta hf]
      exact List.nodup_nil
    · rw [formatLayerData_lcs_none ops config allData filteredIndex
        sameData meta f hf]
      exact nodup_uniqList _
  · intro f hf c
    rw [formatLayerData_lcs_none ops config allData filteredIndex sameData
      meta f hf]
    rw [mem_uniqList, mem_join_data]
    constructor
    · rintro ⟨s, hs, hc⟩
      rcases List.mem_map.mp hs with ⟨d, hd, rfl⟩
      exact ⟨d, hd, hc⟩
    · rintro ⟨d, hd, hc⟩
      exact ⟨pointLabelAccessor config.textLabel d,
        List.mem_map.mpr ⟨d, hd, rfl⟩, hc⟩
  · exact formatLayerData_lcs_none_unbound ops config allData filteredIndex
      sameData meta
  · intro fi2 hperm c
    rcases hf : config.textLabel.field with _ | f
    · rw [formatLayerData_lcs_none_unbound ops config allData filteredIndex
        sameData meta hf,
        formatLayerData_lcs_none_unbound ops config allData fi2 sameData
          meta hf]
    · rw [formatLayerData_lcs_none ops config allData filteredIndex sameData
        meta f hf,
        formatLayerData_lcs_none ops config allData fi2 sameData meta f hf,
        mem_uniqList, mem_uniqList, mem_join_data, mem_join_data,
        formatLayerData_data_none ops config allData filteredIndex sameData
          meta,
        formatLayerData_data_none ops config allData fi2 sameData meta]
      have hp :
          ((((filteredIndex.map
                (fun i => (⟨allData.getD i []⟩ : DataRow))).filter
              (fun d => (pointPosAccessor config.columns d).all
                JSVal.isFinite)).map
            (pointLabelAccessor config.textLabel)).Perm
          (((fi2.map (fun i => (⟨allData.getD i []⟩ : DataRow))).filter
              (fun d => (pointPosAccessor config.columns d).all
                JSVal.isFinite)).map
            (pointLabelAccessor config.textLabel))) :=
        ((hperm.map _).filter _).map _
      constructor
      · rintro ⟨s, hs, hc⟩
        exact ⟨s, hp.mem_iff.mp hs, hc⟩
      · rintro ⟨s, hs, hc⟩
        exact ⟨s, hp.mem_iff.mpr hs, hc⟩

/-- Witness for C6: concrete glyph-set membership with a bound label field,
and set-invariance under the permutation `[0, 1] ~ [1, 0]`. -/
theorem glyph_set_characterization_witness :
    ('a' ∈ (formatLayerData unitOps labeledConfig labelRows [0, 1] none
        false ⟨none⟩).1.labelCharacterSet
      ↔ ∃ d ∈ (formatLayerData unitOps labeledConfig labelRows [0, 1] none
          false ⟨none⟩).1.data,
          'a' ∈ (pointLabelAccessor labeledConfig.textLabel d).data)
    ∧ ('b' ∈ (formatLayerData unitOps labeledConfig labelRows [0, 1] none
        false ⟨none⟩).1.labelCharacterSet
      ↔ 'b' ∈ (formatLayerData unitOps labeledConfig labelRows [1, 0] none
          false ⟨none⟩).1.labelCharacterSet) :=
  ⟨(glyph_set_characterization unitOps labeledConfig labelRows [0, 1] false
      ⟨none⟩).2.1 ⟨3⟩ rfl 'a',
   (glyph_set_characterization unitOps labeledConfig labelRows [0, 1] false
      ⟨none⟩).2.2.2 [1, 0] (by decide) 'b'⟩

/-- Witness for C9: with a hovered row and a bound label field, the
single-row highlight overlay is among the emitted sub-layers. -/
theorem renderLayer_sublayer_count_witness :
    SubLayer.scatter ("layer-0" ++ "-hovered") [⟨[]⟩] false
      ∈ renderLayer unitOps labeledConfig "layer-0" sampleLayerData
          (some ⟨[]⟩) :=
  (renderLayer_sublayer_count unitOps labeledConfig "layer-0"
    sampleLayerData (some ⟨[]⟩)).2.2 ⟨[]⟩ rfl rfl

end KeplerPoint
